import Mathlib

/-!
Verification development for the narration cache and playback coordinator
of the audiobook-mobile repository.

The definitions below are a shallow embedding of the three service modules
`AudioCacheManager.ts`, `AudioPlayerManager.ts` and `OfflineStorageService.ts`.
Pure computations become Lean functions, the mutable cache becomes explicit
state passing over an association-list map, and the asynchronous single-flight
fetch logic becomes an interleaving transition system.  JavaScript numbers
used for playback rates, positions and durations are modelled as rationals;
array indices and character counts as naturals.  TypeScript optional fields
become `Option`, and the runtime truthiness checks of the source are
translated explicitly at each use site.
-/

namespace AudiobookCore

/-- Embedding of the `ParagraphAudioData` interface of `AudioCacheManager.ts`.
`audio_received` is declared `boolean` in TypeScript but the source defends
against a runtime `undefined` (it tests `audio_received !== undefined`), so it
is modelled as `Option Bool`; `audio_uri` and `audio_duration` are optional
fields; `isOffline` is an optional flag only ever tested for truthiness, so it
collapses to `Bool` (absent = `false`). -/
structure ParagraphAudioData where
  paragraph_index : Nat
  paragraph_text : String
  audio_received : Option Bool
  audio_uri : Option String
  audio_duration : Option Nat
  is_loading : Bool
  created_at : Nat
  character_count : Nat
  isOffline : Bool
deriving DecidableEq, Repr

/-- The in-memory cache `Map<number, ParagraphAudioData>` modelled as an
association list keyed by paragraph index. -/
abbrev Cache := List (Nat × ParagraphAudioData)

/-- Lookup in the cache map (`this.cache.get(i)`). -/
def Cache.get : Cache → Nat → Option ParagraphAudioData
  | [], _ => none
  | (j, d) :: rest, i => if j = i then some d else Cache.get rest i

/-- Deletion from the cache map (`this.cache.delete(i)`). -/
def Cache.erase (c : Cache) (i : Nat) : Cache :=
  c.filter (fun p => p.1 ≠ i)

/-- Insertion into the cache map (`this.cache.set(i, d)`). -/
def Cache.set (c : Cache) (i : Nat) (d : ParagraphAudioData) : Cache :=
  (i, d) :: Cache.erase c i

/-- Membership test on the cache map (`this.cache.has(i)`). -/
def Cache.hasKey (c : Cache) (i : Nat) : Bool :=
  (Cache.get c i).isSome

/-- The entry-validity check repeated verbatim at several places in
`AudioCacheManager.ts` (`getAudio`, `loadAudioForParagraph`, `isAudioReady`):
`cached.audio_received === true && typeof cached.audio_uri === 'string' &&
cached.audio_uri.length > 0`. -/
def isValidEntry (d : ParagraphAudioData) : Bool :=
  d.audio_received == some true &&
    (match d.audio_uri with
     | some s => decide (0 < s.length)
     | none => false)

/-- The `AudioCacheConfig` interface of `AudioCacheManager.ts`. -/
structure AudioCacheConfig where
  maxCacheSize : Nat
  preloadCharacterThreshold : Nat
  maxPreloadDistance : Nat
  cacheExpiryMs : Nat
deriving DecidableEq, Repr

/-- The default configuration built in the `AudioCacheManager` constructor. -/
def defaultCacheConfig : AudioCacheConfig :=
  { maxCacheSize := 20
    preloadCharacterThreshold := 1000
    maxPreloadDistance := 8
    cacheExpiryMs := 30 * 60 * 1000 }

/-- Embedding of `AudioCacheManager.isAudioReady`.  Returns the boolean result
together with the cache after the method's side effect: when the entry exists,
fails validation, and its `audio_received` field is present, the entry is
deleted from the map. -/
def isAudioReady (c : Cache) (paragraphIndex : Nat) : Bool × Cache :=
  match Cache.get c paragraphIndex with
  | none => (false, c)
  | some cached =>
    if isValidEntry cached then (true, c)
    else if cached.audio_received ≠ none then (false, Cache.erase c paragraphIndex)
    else (false, c)

/-- Embedding of `AudioCacheManager.cleanupCache`.  Returns the surviving cache
and the list of audio files scheduled for asynchronous deletion.  Entries with
`isOffline` set are skipped by the `forEach` body; all other entries outside
`[currentIndex - 3, currentIndex + maxPreloadDistance]` are removed (the
`Math.max(0, currentIndex - keepRange)` of the source is exactly `Nat`
subtraction). -/
def cleanupCache (config : AudioCacheConfig) (c : Cache) (currentIndex : Nat) :
    Cache × List String :=
  if c.length ≤ config.maxCacheSize then (c, [])
  else
    let keepStart := currentIndex - 3
    let keepEnd := currentIndex + config.maxPreloadDistance
    let keep : Nat × ParagraphAudioData → Bool := fun p =>
      p.2.isOffline || (decide (keepStart ≤ p.1) && decide (p.1 ≤ keepEnd))
    (c.filter keep,
     (c.filter (fun p => !keep p)).filterMap (fun p => p.2.audio_uri))

/-- Embedding of `AudioCacheManager.clearCache`.  The map is cleared entirely
(`this.cache.clear()`), while the file-deletion list is built only from the
entries whose `isOffline` flag is not set. -/
def clearCache (c : Cache) : Cache × List String :=
  ([], (c.filter (fun p => !p.2.isOffline)).filterMap (fun p => p.2.audio_uri))

/-- The voice-related fields of the `AudioCacheManager` object, for
`updateVoices`. -/
structure VoiceState where
  narratorVoice : String
  dialogueVoice : String
  cache : Cache
deriving DecidableEq, Repr

/-- Embedding of `AudioCacheManager.updateVoices`: when either voice differs,
`clearCache` runs and the new voices are adopted; otherwise nothing happens. -/
def updateVoices (s : VoiceState) (narratorVoice dialogueVoice : String) :
    VoiceState × List String :=
  if s.narratorVoice ≠ narratorVoice ∨ s.dialogueVoice ≠ dialogueVoice then
    let cleared := clearCache s.cache
    ({ narratorVoice := narratorVoice, dialogueVoice := dialogueVoice,
       cache := cleared.1 }, cleared.2)
  else (s, [])

/-- A request to the speech-synthesis collaborator (the body of the
`tts-dual-voice` POST issued by `_loadAudioInternal`). -/
structure SynthRequest where
  text : String
  paragraphVoice : String
  dialogueVoice : String
deriving DecidableEq, Repr

/-- Embedding of `AudioCacheManager.seedCache`: installs a ready, offline
record for the index.  The duration probe of the source is best-effort and
only fills `audio_duration`, which is modelled by the `durationHint`
parameter.  The second component is the list of synthesis requests issued by
the method body: it contains none (the only synthesis call site in the class
is `_loadAudioInternal`, which `seedCache` does not reach). -/
def seedCache (c : Cache) (paragraphIndex : Nat) (paragraphText audioUri : String)
    (now : Nat) (durationHint : Option Nat) : Cache × List SynthRequest :=
  (Cache.set c paragraphIndex
    { paragraph_index := paragraphIndex
      paragraph_text := paragraphText
      audio_received := some true
      audio_uri := some audioUri
      audio_duration := durationHint
      is_loading := false
      created_at := now
      character_count := paragraphText.length
      isOffline := true }, [])

/-- Embedding of the budget loop inside `AudioCacheManager.triggerPreload`
(`for (let i = currentIndex + 1; i < allParagraphs.length && preloadCount <
adaptiveMaxDistance; i++)`), expressed structurally over the list suffix
starting at index `i` (so `i < allParagraphs.length` becomes the end of the
suffix).  `hasEntry j` is the combined test `this.cache.has(j) ||
this.activeRequests.has(j)` at loop entry; the loop visits each index exactly
once in ascending order, so entries created by the loop's own fire-and-forget
fetches never flow back into a later test.  Returns the indices for which
`loadAudioForParagraph` is invoked, in order. -/
def preloadLoop (threshold : Nat) (maxDist : Int) (hasEntry : Nat → Bool) :
    List String → Nat → Nat → Nat → List Nat
  | [], _, _, _ => []
  | paragraph :: rest, i, totalCharacters, preloadCount =>
    if (preloadCount : Int) < maxDist then
      let total := totalCharacters + paragraph.length
      let fetched := if hasEntry i then [] else [i]
      if threshold ≤ total then fetched
      else fetched ++ preloadLoop threshold maxDist hasEntry rest (i + 1) total (preloadCount + 1)
    else []

/-- The speed-adaptive preload distance computed in
`AudioCacheManager.triggerPreload`: `Math.min(Math.floor(maxPreloadDistance *
Math.min(playbackSpeed, 2.5)), allParagraphs.length - currentIndex - 1)`,
over the integers as in the source. -/
def adaptiveMaxDistance (config : AudioCacheConfig) (currentIndex : Nat)
    (numParagraphs : Nat) (playbackSpeed : ℚ) : Int :=
  min (Int.floor ((config.maxPreloadDistance : ℚ) * min playbackSpeed (5 / 2)))
    ((numParagraphs : Int) - (currentIndex : Int) - 1)

/-- Embedding of `AudioCacheManager.triggerPreload` (the body of its
`setTimeout` callback): the ultra-priority fetch of `currentIndex + 1`, then
the character-budget loop.  The ultra-priority fire-and-forget call
synchronously installs a cache entry and an active request for that index
before the loop runs, which the model reflects by extending `hasEntry`.
`adaptiveMaxDistance = Math.min(Math.floor(maxPreloadDistance *
Math.min(playbackSpeed, 2.5)), allParagraphs.length - currentIndex - 1)` is
computed over the integers, as in the source.  Returns the list of indices
passed to `loadAudioForParagraph`, in issue order. -/
def triggerPreload (config : AudioCacheConfig) (currentIndex : Nat)
    (allParagraphs : List String) (playbackSpeed : ℚ) (hasEntry : Nat → Bool) :
    List Nat :=
  let immediateNext := currentIndex + 1
  let ultraFired :=
    decide (immediateNext < allParagraphs.length) && !hasEntry immediateNext
  let firstFetch := if ultraFired then [immediateNext] else []
  let hasEntryAfter : Nat → Bool := fun j =>
    hasEntry j || (ultraFired && j == immediateNext)
  firstFetch ++
    preloadLoop config.preloadCharacterThreshold
      (adaptiveMaxDistance config currentIndex allParagraphs.length playbackSpeed)
      hasEntryAfter (allParagraphs.drop (currentIndex + 1)) (currentIndex + 1) 0 0

end AudiobookCore

namespace AudiobookPlayer

open AudiobookCore

/-- A playback-engine status callback payload, as consumed by
`AudioPlayerManager.createStatusCallback` / `isAudioComplete`:
`{isPlaying, positionMillis, durationMillis, didJustFinish}`.  Positions and
durations are modelled as rationals; JavaScript number truthiness
(`!status.positionMillis`) is the test against `0`. -/
structure PlaybackStatus where
  isPlaying : Bool
  positionMillis : ℚ
  durationMillis : ℚ
  didJustFinish : Bool
deriving DecidableEq, Repr

/-- Embedding of `AudioPlayerManager.isAudioComplete`.  Zero (falsy) position
or duration short-circuits to `false`; otherwise completion requires the
stream to be non-playing and the position to be within the speed-adaptive
threshold `30 + (min(rate, 2.5) - 1) * 50` of the duration. -/
def isAudioComplete (playbackSpeed : ℚ) (status : PlaybackStatus) : Bool :=
  if status.positionMillis = 0 ∨ status.durationMillis = 0 then false
  else
    let speedMultiplier := min playbackSpeed (5 / 2)
    let adaptiveThreshold := 30 + (speedMultiplier - 1) * 50
    !status.isPlaying &&
      decide (status.durationMillis - adaptiveThreshold ≤ status.positionMillis)

/-- The completion decision of the status callback
(`const audioCompleted = status.didJustFinish || this.isAudioComplete(status)`). -/
def audioCompleted (playbackSpeed : ℚ) (status : PlaybackStatus) : Bool :=
  status.didJustFinish || isAudioComplete playbackSpeed status

/-- Modelled from the spec wording of the completion rule, for comparison
with the code: completion iff the engine reports just-finished or
`position ≥ duration - threshold` with `threshold = 30 + (min(rate, 2.5) - 1)
* 50`, with no further condition. -/
def specCompleted (playbackSpeed : ℚ) (status : PlaybackStatus) : Bool :=
  status.didJustFinish ||
    decide (status.durationMillis - (30 + (min playbackSpeed (5 / 2) - 1) * 50)
      ≤ status.positionMillis)

/-- The completion-related mutable fields of `AudioPlayerManager` touched by a
status callback: the per-load one-shot guard `completionHandled`, the
`isPlaying` flag, and (as an observer) the number of `onAutoAdvance`
invocations performed so far for the current load. -/
structure CallbackState where
  completionHandled : Bool
  isPlaying : Bool
  advanceCount : Nat
deriving DecidableEq, Repr

/-- Embedding of `AudioPlayerManager.handleAudioCompletion`.  When the guard
is already set the call returns immediately.  Otherwise the guard is set,
playback is marked stopped, and — when auto-advance is enabled — the source
invokes `onAutoAdvance` exactly once on every branch (instantly when the next
index is ready, immediately when the speed-adapted delay is non-positive, and
through `setTimeout` otherwise); the model therefore counts one invocation
whenever auto-advance is enabled. -/
def handleAudioCompletion (autoAdvanceEnabled : Bool) (s : CallbackState) :
    CallbackState :=
  if s.completionHandled then s
  else
    let s2 : CallbackState :=
      { s with completionHandled := true, isPlaying := false }
    if autoAdvanceEnabled then { s2 with advanceCount := s2.advanceCount + 1 }
    else s2

/-- Embedding of one run of the closure built by
`AudioPlayerManager.createStatusCallback` on a single status payload, for the
completion-relevant state (`this.isPlaying = status.isPlaying || false`, then
the completion decision and `handleAudioCompletion`).  The early-preload
section only reads the cache and flips a local flag, so it does not appear in
the completion state. -/
def processStatus (playbackSpeed : ℚ) (autoAdvanceEnabled : Bool)
    (s : CallbackState) (status : PlaybackStatus) : CallbackState :=
  let s2 : CallbackState := { s with isPlaying := status.isPlaying }
  if audioCompleted playbackSpeed status then
    handleAudioCompletion autoAdvanceEnabled s2
  else s2

/-- Processing of a sequence of status callbacks for one loaded stream. -/
def processStatuses (playbackSpeed : ℚ) (autoAdvanceEnabled : Bool)
    (s : CallbackState) (statuses : List PlaybackStatus) : CallbackState :=
  statuses.foldl (processStatus playbackSpeed autoAdvanceEnabled) s

/-- The callback state right after `createAndPlaySound` loads a new stream:
the one-shot guard is reset (`this.completionHandled = false`), playback is
marked started, and no auto-advance has fired for this load. -/
def freshLoadState : CallbackState :=
  { completionHandled := false, isPlaying := true, advanceCount := 0 }

/-- Speed clamping in `AudioPlayerManager.setPlaybackSpeed`
(`Math.max(0.25, Math.min(4.0, speed))`). -/
def clampSpeed (speed : ℚ) : ℚ :=
  max (1 / 4) (min 4 speed)

/-- Embedding of `AudioPlayerManager.updateAutoAdvanceForSpeed`:
`Math.max(0, 1 - (speed - 1) * 0.5)`. -/
def updateAutoAdvanceForSpeed (speed : ℚ) : ℚ :=
  max 0 (1 - (speed - 1) * (1 / 2))

/-- The fields of `AudioPlayerManager` read and written by
`setPlaybackSpeed`, plus the speed mirrored into the cache manager by
`cacheManager.setPlaybackSpeed` (which just stores it in
`currentPlaybackSpeed`). -/
structure SpeedState where
  playbackSpeed : ℚ
  autoAdvanceDelayMs : ℚ
  cacheSpeed : ℚ
  soundLoaded : Bool
  operationLock : Bool
deriving DecidableEq, Repr

/-- Embedding of `AudioPlayerManager.setPlaybackSpeed`.  The returned list
records every `setRateAsync(rate, shouldCorrectPitch)` call issued to the
loaded sound, in order.  All platform branches of the source issue the
identical call `setRateAsync(clampedSpeed, true)`; when it throws, the catch
block retries once with the very same `setRateAsync(clampedSpeed, true)` and
swallows a second failure, so the method never throws.  The sound is touched
only under `this.sound && !this.operationLock`. -/
def setPlaybackSpeed (s : SpeedState) (speed : ℚ) (firstAttemptFails : Bool) :
    SpeedState × List (ℚ × Bool) :=
  let clampedSpeed := clampSpeed speed
  let s2 : SpeedState :=
    { s with playbackSpeed := clampedSpeed
             autoAdvanceDelayMs := updateAutoAdvanceForSpeed clampedSpeed
             cacheSpeed := clampedSpeed }
  if s2.soundLoaded && !s2.operationLock then
    if firstAttemptFails then (s2, [(clampedSpeed, true), (clampedSpeed, true)])
    else (s2, [(clampedSpeed, true)])
  else (s2, [])

/-- The `AudioPlayerState` interface of `AudioPlayerManager.ts`. -/
structure AudioPlayerState where
  isPlaying : Bool
  currentIndex : Option Nat
  isLoading : Bool
  duration : ℚ
  position : ℚ
  playbackSpeed : ℚ
  pitchCorrectionEnabled : Bool
  platform : String
deriving DecidableEq, Repr

/-- The internal fields of `AudioPlayerManager` from which both
`emitStateChange` and `getCurrentState` build a state object. -/
structure PlayerFields where
  isPlaying : Bool
  currentIndex : Option Nat
  isLoading : Bool
  playbackSpeed : ℚ
  platform : String
deriving DecidableEq, Repr

/-- The state object constructed by `AudioPlayerManager.emitStateChange` and
handed to the `onStateChange` callback: `duration` and `position` are the
literal `0`, `pitchCorrectionEnabled` the literal `true`. -/
def emitStateChange (m : PlayerFields) : AudioPlayerState :=
  { isPlaying := m.isPlaying
    currentIndex := m.currentIndex
    isLoading := m.isLoading
    duration := 0
    position := 0
    playbackSpeed := m.playbackSpeed
    pitchCorrectionEnabled := true
    platform := m.platform }

/-- The state object returned by `AudioPlayerManager.getCurrentState`, built
from the same fields with the same literal `0` duration and position. -/
def getCurrentState (m : PlayerFields) : AudioPlayerState :=
  { isPlaying := m.isPlaying
    currentIndex := m.currentIndex
    isLoading := m.isLoading
    duration := 0
    position := 0
    playbackSpeed := m.playbackSpeed
    pitchCorrectionEnabled := true
    platform := m.platform }

/-- The coordinator fields mutated along `playParagraph` / `togglePlayback`:
the mutual-exclusion flag, the loading flag, the playing flag, the loaded
index, and whether a sound resource is currently held. -/
structure CoordState where
  operationLock : Bool
  isLoading : Bool
  isPlaying : Bool
  currentIndex : Option Nat
  soundLoaded : Bool
deriving DecidableEq, Repr

/-- Embedding of `AudioPlayerManager.playParagraph`.  `audioData` is the
record returned by `cacheManager.getAudio` (`none` when it returned `null`),
and `createSucceeds` tells whether `Audio.Sound.createAsync` succeeds.  The
body runs under the operation lock; every throw inside the `try` is caught
(returning `false`), and the `finally` block clears the loading flag and the
lock on every path.  An early `return false` when the lock is already held
leaves all state untouched. -/
def playParagraph (s : CoordState) (paragraphIndex : Nat)
    (audioData : Option ParagraphAudioData) (createSucceeds : Bool) :
    CoordState × Bool :=
  if s.operationLock then (s, false)
  else
    let s1 : CoordState := { s with operationLock := true }
    let s2 : CoordState := { s1 with soundLoaded := false, isPlaying := false }
    let s3 : CoordState :=
      { s2 with isLoading := true, currentIndex := some paragraphIndex }
    let step : CoordState × Bool :=
      match audioData with
      | none => (s3, false)
      | some d =>
        if d.audio_received ≠ some true then (s3, false)
        else
          match d.audio_uri with
          | none => (s3, false)
          | some uri =>
            if uri.length = 0 then (s3, false)
            else if createSucceeds then
              ({ s3 with soundLoaded := true, isPlaying := true,
                         currentIndex := some paragraphIndex }, true)
            else (s3, false)
    ({ step.1 with isLoading := false, operationLock := false }, step.2)

/-- Embedding of `AudioPlayerManager.togglePlayback`.  `engineSucceeds` tells
whether the engine's pause/play call succeeds; a throw is caught (returning
`false`) without flipping `isPlaying`, and the `finally` block clears the
lock.  The early `return false` fires when no sound is loaded or the lock is
held. -/
def togglePlayback (s : CoordState) (engineSucceeds : Bool) :
    CoordState × Bool :=
  if !s.soundLoaded || s.operationLock then (s, false)
  else
    let s1 : CoordState := { s with operationLock := true }
    let step : CoordState × Bool :=
      if engineSucceeds then
        if s1.isPlaying then ({ s1 with isPlaying := false }, true)
        else ({ s1 with isPlaying := true }, true)
      else (s1, false)
    ({ step.1 with operationLock := false }, step.2)

end AudiobookPlayer

namespace AudiobookOffline

open AudiobookCore

/-- The chapter directory computed by `OfflineStorageService.getChapterDir`:
`BASE_DIR + novelId + '/' + chapterNumber + '/'`. -/
def chapterDir (baseDir novelId : String) (chapterNumber : Nat) : String :=
  baseDir ++ novelId ++ "/" ++ toString chapterNumber ++ "/"

/-- Embedding of `OfflineStorageService.saveParagraphAudio`.  On success the
file is copied to `chapterDir + 'audio/' + paragraphIndex + '.mp3'` and that
target path is returned; every failure is caught and returns `null`.
`copySucceeds` stands for the success of the filesystem operations.  The body
issues no synthesis request. -/
def saveParagraphAudio (baseDir novelId : String)
    (chapterNumber paragraphIndex : Nat) (copySucceeds : Bool) :
    Option String :=
  if copySucceeds then
    some (chapterDir baseDir novelId chapterNumber ++ "audio/" ++
      toString paragraphIndex ++ ".mp3")
  else none

end AudiobookOffline

namespace AudiobookSingleFlight

open AudiobookCore

/-- The pending cache entry written by `_loadAudioInternal` before issuing
the synthesis request (`audio_received: false`, `is_loading: true`, no URI). -/
def pendingRec (i : Nat) (text : String) (now : Nat) : ParagraphAudioData :=
  { paragraph_index := i
    paragraph_text := text
    audio_received := some false
    audio_uri := none
    audio_duration := none
    is_loading := true
    created_at := now
    character_count := text.length
    isOffline := false }

/-- The cache entry after `_loadAudioInternal` received the synthesized audio
and wrote it to `uri` (`audio_received = true`, `is_loading = false`).  The
best-effort duration probe that runs afterwards only fills `audio_duration`
and is folded into this record. -/
def readyRec (i : Nat) (text uri : String) (now : Nat) : ParagraphAudioData :=
  { paragraph_index := i
    paragraph_text := text
    audio_received := some true
    audio_uri := some uri
    audio_duration := none
    is_loading := false
    created_at := now
    character_count := text.length
    isOffline := false }

/-- The shared cache-manager state relevant to one paragraph index `i`:
the cache entry for `i`, whether `activeRequests` holds a promise for `i`,
whether that promise has resolved, the number of synthesis requests issued so
far, and the number currently in flight. -/
structure SFState where
  entry : Option ParagraphAudioData
  active : Bool
  resolved : Bool
  fetchCount : Nat
  inflight : Nat
deriving DecidableEq, Repr

/-- The control position of one `getAudio(i, …)` caller between the await
points of the source.  `fetching` is the caller that issued the synthesis
request, suspended at the `fetch` await; `finishing` is that caller after the
response arrived and the ready record was written, suspended at the
remaining awaits of `_loadAudioInternal`; `waiting` is a caller suspended on
`await this.activeRequests.get(i)`. -/
inductive TPhase where
  | start
  | fetching
  | finishing
  | waiting
  | done (result : Option ParagraphAudioData)
deriving DecidableEq, Repr

/-- Issuing a fresh fetch: `_loadAudioInternal`'s synchronous prefix installs
the pending entry and starts the TTS request, then `loadAudioForParagraph`
registers the promise in `activeRequests` — all before the first await, hence
one atomic step. -/
def issueFetch (i : Nat) (text : String) (now : Nat) (sh : SFState) :
    SFState × TPhase :=
  ({ sh with entry := some (pendingRec i text now)
             active := true
             fetchCount := sh.fetchCount + 1
             inflight := sh.inflight + 1 }, .fetching)

/-- The synchronous prefix of `loadAudioForParagraph`: re-validate the cache
entry (returning a valid one, deleting an invalid one whose `audio_received`
is present), skip with `null` when another request is already registered, and
otherwise issue the fetch. -/
def loadAttempt (i : Nat) (text : String) (now : Nat) (sh : SFState) :
    SFState × TPhase :=
  match sh.entry with
  | some d =>
    if isValidEntry d then (sh, .done (some d))
    else
      let sh2 := if d.audio_received ≠ none then { sh with entry := none } else sh
      if sh2.active then (sh2, .done none)
      else issueFetch i text now sh2
  | none =>
    if sh.active then (sh, .done none)
    else issueFetch i text now sh

/-- One atomic step of a `getAudio(i, …)` caller in phase `p` over shared
state `sh`.  Atomic blocks are delimited by the source's await points:

* `start` runs `getAudio` down to its first await: a valid cached entry is
  returned at once; an invalid one is deleted; with a registered active
  request the caller awaits it (`waiting`), otherwise it falls into
  `loadAudioForParagraph` (`loadAttempt`).
* `fetching` is resumed by the arrival of the synthesis response:
  `_loadAudioInternal` writes the audio file and unconditionally stores the
  ready record (`this.cache.set`).
* `finishing` is resumed when `_loadAudioInternal` returns: the load promise
  resolves, and — microtasks running in FIFO order — the fetcher's own
  continuation runs first: it validates the entry it finds in the cache
  (deleting a corrupted one and returning `null`) and its `finally` removes
  the promise from `activeRequests`.
* `waiting` can be resumed only once the promise has resolved; the caller
  re-reads the cache, returns a valid entry, and otherwise falls through to
  `loadAudioForParagraph`.
* `done` is absorbing. -/
def threadStep (i : Nat) (text uri : String) (now : Nat) (sh : SFState)
    (p : TPhase) : SFState × TPhase :=
  match p with
  | .start =>
    match sh.entry with
    | some d =>
      if isValidEntry d then (sh, .done (some d))
      else
        let sh2 := { sh with entry := none }
        if sh2.active then (sh2, .waiting) else loadAttempt i text now sh2
    | none =>
      if sh.active then (sh, .waiting) else loadAttempt i text now sh
  | .fetching =>
    ({ sh with entry := some (readyRec i text uri now)
               inflight := sh.inflight - 1 }, .finishing)
  | .finishing =>
    let sh2 := { sh with resolved := true, active := false }
    match sh2.entry with
    | some d =>
      if isValidEntry d then (sh2, .done (some d))
      else if d.audio_received ≠ none then ({ sh2 with entry := none }, .done none)
      else (sh2, .done none)
    | none => (sh2, .done none)
  | .waiting =>
    if sh.resolved then
      match sh.entry with
      | some d =>
        if isValidEntry d then (sh, .done (some d))
        else loadAttempt i text now sh
      | none => loadAttempt i text now sh
    else (sh, .waiting)
  | .done r => (sh, .done r)

/-- Two concurrent `getAudio` callers for the same index over the shared
cache-manager state. -/
structure SysState where
  sh : SFState
  t1 : TPhase
  t2 : TPhase
deriving DecidableEq, Repr

/-- One scheduler step: `who` selects which caller runs its next atomic
block. -/
def sysStep (i : Nat) (text uri : String) (now : Nat) (s : SysState)
    (who : Bool) : SysState :=
  if who then
    let r := threadStep i text uri now s.sh s.t1
    { s with sh := r.1, t1 := r.2 }
  else
    let r := threadStep i text uri now s.sh s.t2
    { s with sh := r.1, t2 := r.2 }

/-- The initial state for an unresolved index: no cache entry, no active
request, nothing resolved, no synthesis request issued. -/
def sysInit : SysState :=
  { sh := { entry := none, active := false, resolved := false,
            fetchCount := 0, inflight := 0 }
    t1 := .start
    t2 := .start }

/-- Run both callers under an arbitrary finite schedule. -/
def sysRun (i : Nat) (text uri : String) (now : Nat) (sched : List Bool) :
    SysState :=
  sched.foldl (sysStep i text uri now) sysInit

/-- Admissible phases of the non-fetching caller once the ready record is in
the cache. -/
def bystander (rdy : ParagraphAudioData) (p : TPhase) : Prop :=
  p = .start ∨ p = .waiting ∨ p = .done (some rdy)

/-- The reachable configurations in which the caller in phase `a` owns the
in-flight fetch (or has completed it) and the caller in phase `b` observes
it. -/
def fetchSide (pend rdy : ParagraphAudioData) (sh : SFState) (a b : TPhase) :
    Prop :=
  (a = .fetching ∧ b = .start ∧
    sh = { entry := some pend, active := true, resolved := false,
           fetchCount := 1, inflight := 1 })
  ∨ (a = .fetching ∧ b = .waiting ∧
    sh = { entry := none, active := true, resolved := false,
           fetchCount := 1, inflight := 1 })
  ∨ (a = .finishing ∧ bystander rdy b ∧
    sh = { entry := some rdy, active := true, resolved := false,
           fetchCount := 1, inflight := 0 })
  ∨ (a = .done (some rdy) ∧ bystander rdy b ∧
    sh = { entry := some rdy, active := false, resolved := true,
           fetchCount := 1, inflight := 0 })

/-- Inductive invariant of the two-caller system: either nothing has started,
or exactly one caller has issued the single fetch, with the other in an
observing phase. -/
def SFInv (i : Nat) (text uri : String) (now : Nat) (s : SysState) : Prop :=
  (s.sh = { entry := none, active := false, resolved := false,
            fetchCount := 0, inflight := 0 } ∧ s.t1 = .start ∧ s.t2 = .start)
  ∨ fetchSide (pendingRec i text now) (readyRec i text uri now) s.sh s.t1 s.t2
  ∨ fetchSide (pendingRec i text now) (readyRec i text uri now) s.sh s.t2 s.t1

end AudiobookSingleFlight

namespace AudiobookFixtures

open AudiobookCore

/-- A 400-character paragraph, used by the character-budget scenarios of the
specification. -/
def para400 : String := String.mk (List.replicate 400 'a')

/-- A cache record in the pending/loading lifecycle stage (created by
`_loadAudioInternal` before the synthesis response arrives). -/
def loadingFixture : ParagraphAudioData :=
  { paragraph_index := 5
    paragraph_text := "some text"
    audio_received := some false
    audio_uri := none
    audio_duration := none
    is_loading := true
    created_at := 0
    character_count := 9
    isOffline := false }

/-- A ready, durable (offline) cache record. -/
def durableFixture : ParagraphAudioData :=
  { paragraph_index := 3
    paragraph_text := "dur"
    audio_received := some true
    audio_uri := some "file.mp3"
    audio_duration := some 1200
    is_loading := false
    created_at := 0
    character_count := 3
    isOffline := true }

/-- A ready, non-durable cache record. -/
def transientFixture : ParagraphAudioData :=
  { paragraph_index := 4
    paragraph_text := "tmp"
    audio_received := some true
    audio_uri := some "tmp.mp3"
    audio_duration := some 900
    is_loading := false
    created_at := 0
    character_count := 3
    isOffline := false }

end AudiobookFixtures

open AudiobookCore AudiobookPlayer AudiobookOffline AudiobookSingleFlight AudiobookFixtures

/-- A pending record never passes the readiness validation: its
`audio_received` is `false`. -/
theorem isValidEntry_pendingRec (i : Nat) (text : String) (now : Nat) :
    isValidEntry (pendingRec i text now) = false := rfl

/-- The record written after a successful synthesis passes the readiness
validation as soon as its URI is non-empty. -/
theorem isValidEntry_readyRec (i : Nat) (text uri : String) (now : Nat)
    (h : 0 < uri.length) : isValidEntry (readyRec i text uri now) = true := by
  simp [isValidEntry, readyRec, h]

/-- The single-flight invariant holds initially. -/
theorem inv_init (i : Nat) (text uri : String) (now : Nat) :
    SFInv i text uri now sysInit := by
  left; exact ⟨rfl, rfl, rfl⟩

/-- The single-flight invariant is preserved by every scheduler step. -/
theorem inv_preserved (i : Nat) (text uri : String) (now : Nat)
    (huri : 0 < uri.length) (s : SysState) (who : Bool)
    (h : SFInv i text uri now s) :
    SFInv i text uri now (sysStep i text uri now s who) := by
  have hpend := isValidEntry_pendingRec i text now
  have hrdy := isValidEntry_readyRec i text uri now huri
  obtain ⟨sh, t1, t2⟩ := s
  rcases h with ⟨hsh, ht1, ht2⟩ | hside | hside
  · subst hsh; subst ht1; subst ht2
    cases who <;>
      simp [sysStep, threadStep, loadAttempt, issueFetch, SFInv, fetchSide,
        bystander, hpend, hrdy]
  · rcases hside with ⟨ha, hb, hsh⟩ | ⟨ha, hb, hsh⟩ | ⟨ha, hb, hsh⟩ | ⟨ha, hb, hsh⟩
    · subst ha; subst hb; subst hsh
      cases who <;>
        simp [sysStep, threadStep, loadAttempt, issueFetch, SFInv, fetchSide,
          bystander, hpend, hrdy]
    · subst ha; subst hb; subst hsh
      cases who <;>
        simp [sysStep, threadStep, loadAttempt, issueFetch, SFInv, fetchSide,
          bystander, hpend, hrdy]
    · subst ha; subst hsh
      rcases hb with hb | hb | hb <;> subst hb <;> cases who <;>
        simp [sysStep, threadStep, loadAttempt, issueFetch, SFInv, fetchSide,
          bystander, hpend, hrdy]
    · subst ha; subst hsh
      rcases hb with hb | hb | hb <;> subst hb <;> cases who <;>
        simp [sysStep, threadStep, loadAttempt, issueFetch, SFInv, fetchSide,
          bystander, hpend, hrdy]
  · rcases hside with ⟨ha, hb, hsh⟩ | ⟨ha, hb, hsh⟩ | ⟨ha, hb, hsh⟩ | ⟨ha, hb, hsh⟩
    · subst ha; subst hb; subst hsh
      cases who <;>
        simp [sysStep, threadStep, loadAttempt, issueFetch, SFInv, fetchSide,
          bystander, hpend, hrdy]
    · subst ha; subst hb; subst hsh
      cases who <;>
        simp [sysStep, threadStep, loadAttempt, issueFetch, SFInv, fetchSide,
          bystander, hpend, hrdy]
    · subst ha; subst hsh
      rcases hb with hb | hb | hb <;> subst hb <;> cases who <;>
        simp [sysStep, threadStep, loadAttempt, issueFetch, SFInv, fetchSide,
          bystander, hpend, hrdy]
    · subst ha; subst hsh
      rcases hb with hb | hb | hb <;> subst hb <;> cases who <;>
        simp [sysStep, threadStep, loadAttempt, issueFetch, SFInv, fetchSide,
          bystander, hpend, hrdy]

/-- The single-flight invariant holds after any finite schedule. -/
theorem inv_run (i : Nat) (text uri : String) (now : Nat)
    (huri : 0 < uri.length) (sched : List Bool) :
    SFInv i text uri now (sysRun i text uri now sched) := by
  have main : ∀ (l : List Bool) (s : SysState), SFInv i text uri now s →
      SFInv i text uri now (l.foldl (sysStep i text uri now) s) := by
    intro l
    induction l with
    | nil => intro s hs; exact hs
    | cons b rest ih =>
      intro s hs
      exact ih _ (inv_preserved i text uri now huri s b hs)
  exact main sched sysInit (inv_init i text uri now)

/-- C1: single-flight fetch deduplication.  Over every interleaving of two
concurrent `getAudio` calls for the same unresolved index, at most one
synthesis fetch is ever in flight; and whenever both callers have completed,
exactly one synthesis request was issued and both callers received the same
successful ready record. -/
theorem getAudio_single_flight (i : Nat) (text uri : String) (now : Nat)
    (huri : 0 < uri.length) :
    (∀ sched : List Bool,
      (sysRun i text uri now sched).sh.inflight ≤ 1 ∧
      (sysRun i text uri now sched).sh.fetchCount ≤ 1) ∧
    (∀ (sched : List Bool) (r1 r2 : Option ParagraphAudioData),
      (sysRun i text uri now sched).t1 = .done r1 →
      (sysRun i text uri now sched).t2 = .done r2 →
      (sysRun i text uri now sched).sh.fetchCount = 1 ∧
      r1 = some (readyRec i text uri now) ∧ r2 = r1) := by
  constructor
  · intro sched
    have h := inv_run i text uri now huri sched
    rcases h with ⟨hsh, -, -⟩ | hside | hside <;>
      first
        | (rw [hsh]; exact ⟨by simp, by simp⟩)
        | (rcases hside with ⟨-, -, hsh⟩ | ⟨-, -, hsh⟩ | ⟨-, -, hsh⟩ | ⟨-, -, hsh⟩ <;>
            rw [hsh] <;> exact ⟨by simp, by simp⟩)
  · intro sched r1 r2 h1 h2
    have h := inv_run i text uri now huri sched
    rcases h with ⟨-, ht1, -⟩ | hside | hside
    · rw [h1] at ht1; exact absurd ht1 (by simp)
    · rcases hside with ⟨ha, -, -⟩ | ⟨ha, -, -⟩ | ⟨ha, -, -⟩ | ⟨ha, hb, hsh⟩
      · rw [h1] at ha; exact absurd ha (by simp)
      · rw [h1] at ha; exact absurd ha (by simp)
      · rw [h1] at ha; exact absurd ha (by simp)
      · rw [h1] at ha
        rcases hb with hb | hb | hb
        · rw [h2] at hb; exact absurd hb (by simp)
        · rw [h2] at hb; exact absurd hb (by simp)
        · rw [h2] at hb
          have hr1 : r1 = some (readyRec i text uri now) := by
            simpa using ha
          have hr2 : r2 = some (readyRec i text uri now) := by
            simpa using hb
          rw [hsh]
          exact ⟨rfl, hr1, hr2.trans hr1.symm⟩
    · rcases hside with ⟨ha, -, -⟩ | ⟨ha, -, -⟩ | ⟨ha, -, -⟩ | ⟨ha, hb, hsh⟩
      · rw [h2] at ha; exact absurd ha (by simp)
      · rw [h2] at ha; exact absurd ha (by simp)
      · rw [h2] at ha; exact absurd ha (by simp)
      · rw [h2] at ha
        rcases hb with hb | hb | hb
        · rw [h1] at hb; exact absurd hb (by simp)
        · rw [h1] at hb; exact absurd hb (by simp)
        · rw [h1] at hb
          have hr1 : r1 = some (readyRec i text uri now) := by
            simpa using hb
          have hr2 : r2 = some (readyRec i text uri now) := by
            simpa using ha
          rw [hsh]
          exact ⟨rfl, hr1, hr2.trans hr1.symm⟩

/-- Witness for C1: a concrete schedule under which both callers finish; the
theorem yields one issued fetch and identical successful results. -/
theorem getAudio_single_flight_witness :
    (sysRun 0 "t" "u" 0 [true, true, true, false]).sh.fetchCount = 1 ∧
    (sysRun 0 "t" "u" 0 [true, true, true, false]).t1 =
      .done (some (readyRec 0 "t" "u" 0)) := by
  refine ⟨((getAudio_single_flight 0 "t" "u" 0 (by decide)).2
    [true, true, true, false]
    (some (readyRec 0 "t" "u" 0)) (some (readyRec 0 "t" "u" 0))
    (by decide) (by decide)).1, by decide⟩

/-- C9: every state object the coordinator hands to `onStateChange` and every
state returned by `getCurrentState` carries `duration = 0` and
`position = 0`, whatever the internal player fields are. -/
theorem player_state_zero_duration_position (m : PlayerFields) :
    (emitStateChange m).duration = 0 ∧ (emitStateChange m).position = 0 ∧
    (getCurrentState m).duration = 0 ∧ (getCurrentState m).position = 0 :=
  ⟨rfl, rfl, rfl, rfl⟩

/-- C10: starting from an unlocked coordinator, `playParagraph` and
`togglePlayback` leave the operation lock released on every success and
failure path. -/
theorem operation_lock_released (s : CoordState) (paragraphIndex : Nat)
    (audioData : Option ParagraphAudioData)
    (createSucceeds engineSucceeds : Bool) (h : s.operationLock = false) :
    (playParagraph s paragraphIndex audioData createSucceeds).1.operationLock
      = false ∧
    (togglePlayback s engineSucceeds).1.operationLock = false := by
  cases hs : s.soundLoaded <;> simp [playParagraph, togglePlayback, h, hs]

/-- Witness for C10 at a concrete unlocked coordinator state. -/
theorem operation_lock_released_witness :
    (playParagraph
      { operationLock := false, isLoading := false, isPlaying := false,
        currentIndex := none, soundLoaded := false } 0 none false).1.operationLock
      = false :=
  (operation_lock_released
    { operationLock := false, isLoading := false, isPlaying := false,
      currentIndex := none, soundLoaded := false } 0 none false false rfl).1

/-- Counterexample for C3 as stated: at rate 1 a status with
`position = duration = 1000` that is still playing satisfies the spec's
completion formula (no non-playing condition), but the code declares no
completion because `isAudioComplete` also requires `!status.isPlaying`. -/
theorem completion_needs_not_playing :
    audioCompleted 1
      { isPlaying := true, positionMillis := 1000, durationMillis := 1000,
        didJustFinish := false } = false ∧
    specCompleted 1
      { isPlaying := true, positionMillis := 1000, durationMillis := 1000,
        didJustFinish := false } = true := by
  constructor
  · rfl
  · simp [specCompleted]
    norm_num

/-- C3 amended: completion is declared iff the engine reports just-finished,
or the status carries nonzero position and duration, the stream is not
playing, and the position is within the rate-adaptive threshold
`30 + (min(rate, 2.5) - 1) * 50` of the duration. -/
theorem audioCompleted_characterization (speed : ℚ) (st : PlaybackStatus) :
    audioCompleted speed st = true ↔
      (st.didJustFinish = true ∨
        (st.isPlaying = false ∧ st.positionMillis ≠ 0 ∧ st.durationMillis ≠ 0 ∧
          st.durationMillis - (30 + (min speed (5 / 2) - 1) * 50)
            ≤ st.positionMillis)) := by
  rcases st with ⟨ip, pos, dur, djf⟩
  simp only [audioCompleted, isAudioComplete, Bool.or_eq_true]
  cases djf <;> cases ip <;> split_ifs <;> (simp_all; try tauto)

/-- Helper for C5: one status callback preserves the relation between the
one-shot guard and the number of auto-advance invocations. -/
theorem processStatus_count_inv (speed : ℚ) (s : CallbackState)
    (st : PlaybackStatus)
    (h : s.advanceCount = if s.completionHandled then 1 else 0) :
    (processStatus speed true s st).advanceCount =
      if (processStatus speed true s st).completionHandled then 1 else 0 := by
  unfold processStatus handleAudioCompletion
  rcases s with ⟨ch, ip, ac⟩
  cases ch <;> (simp_all; try split_ifs) <;> simp_all

/-- Helper for C5: the guard/count relation holds after any status list. -/
theorem processStatuses_count_inv (speed : ℚ) (l : List PlaybackStatus)
    (s : CallbackState)
    (h : s.advanceCount = if s.completionHandled then 1 else 0) :
    (processStatuses speed true s l).advanceCount =
      if (processStatuses speed true s l).completionHandled then 1 else 0 := by
  induction l generalizing s with
  | nil => exact h
  | cons st rest ih =>
    exact ih (processStatus speed true s st) (processStatus_count_inv speed s st h)

/-- Helper for C5: the one-shot guard is never reset by a status callback,
and a completing status sets it. -/
theorem processStatuses_handled (speed : ℚ) (l : List PlaybackStatus)
    (s : CallbackState)
    (h : s.completionHandled = true ∨ ∃ st ∈ l, audioCompleted speed st = true) :
    (processStatuses speed true s l).completionHandled = true := by
  induction l generalizing s with
  | nil =>
    rcases h with h | ⟨st, hmem, -⟩
    · exact h
    · cases hmem
  | cons st rest ih =>
    apply ih
    rcases h with h | ⟨st2, hmem, hc⟩
    · left
      unfold processStatus handleAudioCompletion
      rcases s with ⟨ch, ip, ac⟩
      cases ch <;> simp_all
    · rcases List.mem_cons.mp hmem with rfl | hmem2
      · left
        unfold processStatus handleAudioCompletion
        rcases s with ⟨ch, ip, ac⟩
        cases ch <;> simp_all
      · right; exact ⟨st2, hmem2, hc⟩

/-- C5: for one loaded stream (guard freshly reset by `createAndPlaySound`),
any sequence of status callbacks containing at least one that satisfies the
completion condition produces exactly one auto-advance invocation; and no
status callback ever resets the one-shot guard (it is reset only by a new
load). -/
theorem autoAdvance_once_per_load (speed : ℚ) (l : List PlaybackStatus)
    (h : ∃ st ∈ l, audioCompleted speed st = true) :
    (processStatuses speed true freshLoadState l).advanceCount = 1 ∧
    ∀ (s : CallbackState) (st : PlaybackStatus), s.completionHandled = true →
      (processStatus speed true s st).completionHandled = true := by
  constructor
  · have hrel := processStatuses_count_inv speed l freshLoadState rfl
    have hdone := processStatuses_handled speed l freshLoadState (Or.inr h)
    rw [hrel, hdone]
    rfl
  · intro s st hs
    unfold processStatus handleAudioCompletion
    rcases s with ⟨ch, ip, ac⟩
    cases ch <;> simp_all

/-- Witness for C5: a single just-finished status callback yields exactly one
auto-advance invocation. -/
theorem autoAdvance_once_per_load_witness :
    (processStatuses 1 true freshLoadState
      [{ isPlaying := false, positionMillis := 0, durationMillis := 0,
         didJustFinish := true }]).advanceCount = 1 :=
  (autoAdvance_once_per_load 1
    [{ isPlaying := false, positionMillis := 0, durationMillis := 0,
       didJustFinish := true }]
    ⟨{ isPlaying := false, positionMillis := 0, durationMillis := 0,
       didJustFinish := true }, by simp, rfl⟩).1

/-- Deleting key `i` from the cache map leaves every other key unchanged. -/
theorem Cache.get_erase_ne (c : Cache) (i j : Nat) (h : j ≠ i) :
    Cache.get (Cache.erase c i) j = Cache.get c j := by
  induction c with
  | nil => rfl
  | cons q rest ih =>
    obtain ⟨k, d⟩ := q
    by_cases hk : k = i
    · subst hk
      have hkj : ¬(k = j) := fun hc => h (hc ▸ rfl)
      simp [Cache.erase, Cache.get, List.filter_cons, hkj]
      simpa [Cache.erase] using ih
    · by_cases hkj : k = j
      · subst hkj
        simp [Cache.erase, Cache.get, List.filter_cons, hk]
      · simp [Cache.erase, Cache.get, List.filter_cons, hk, hkj]
        simpa [Cache.erase] using ih

/-- A kept entry survives filtering of the cache map. -/
theorem Cache.get_filter_of_keep (p : Nat × ParagraphAudioData → Bool)
    (c : Cache) (i : Nat) (d : ParagraphAudioData)
    (hget : Cache.get c i = some d) (hp : p (i, d) = true) :
    Cache.get (c.filter p) i = some d := by
  induction c with
  | nil => cases hget
  | cons q rest ih =>
    obtain ⟨k, e⟩ := q
    by_cases hk : k = i
    · subst hk
      rw [Cache.get, if_pos rfl] at hget
      obtain rfl : e = d := by injection hget
      rw [List.filter_cons, if_pos hp]
      rw [Cache.get, if_pos rfl]
    · rw [Cache.get, if_neg hk] at hget
      rw [List.filter_cons]
      by_cases hq : p (k, e) = true
      · rw [if_pos hq, Cache.get, if_neg hk]
        exact ih hget
      · rw [if_neg hq]
        exact ih hget

/-- Counterexample for C6 as stated: a record still in the pending/loading
stage (`audio_received = false`, `is_loading = true`) is not internally
inconsistent in the claim's sense, yet `isAudioReady` deletes it from the
index. -/
theorem isAudioReady_deletes_loading_entry :
    loadingFixture.is_loading = true ∧
    loadingFixture.audio_received = some false ∧
    (isAudioReady [(5, loadingFixture)] 5).1 = false ∧
    Cache.get (isAudioReady [(5, loadingFixture)] 5).2 5 = none := by
  decide

/-- C6 amended: `isAudioReady` returns true iff a record passing the
readiness validation exists; its side effect deletes the queried record
exactly when that record fails validation while its `audio_received` field is
present (this covers pending/loading records, not only records claiming
readiness with a missing handle), and every other key is untouched. -/
theorem isAudioReady_characterization (c : Cache) (i : Nat) :
    ((isAudioReady c i).1 = true ↔
      ∃ d, Cache.get c i = some d ∧ isValidEntry d = true) ∧
    ((isAudioReady c i).2 =
      match Cache.get c i with
      | some d =>
        if isValidEntry d = false ∧ d.audio_received ≠ none then Cache.erase c i
        else c
      | none => c) ∧
    (∀ j, j ≠ i → Cache.get (isAudioReady c i).2 j = Cache.get c j) := by
  refine ⟨?_, ?_, ?_⟩
  · unfold isAudioReady
    cases hget : Cache.get c i with
    | none => simp
    | some d =>
      by_cases hv : isValidEntry d = true
      · simp [hv]
      · simp only [Bool.not_eq_true] at hv
        by_cases hr : d.audio_received = none <;> simp [hv, hr]
  · unfold isAudioReady
    cases hget : Cache.get c i with
    | none => simp
    | some d =>
      by_cases hv : isValidEntry d = true
      · simp [hv]
      · simp only [Bool.not_eq_true] at hv
        by_cases hr : d.audio_received = none <;> simp [hv, hr]
  · intro j hj
    unfold isAudioReady
    cases hget : Cache.get c i with
    | none => simp
    | some d =>
      by_cases hv : isValidEntry d = true
      · simp [hv]
      · simp only [Bool.not_eq_true] at hv
        by_cases hr : d.audio_received = none
        · simp [hv, hr]
        · simp [hv, hr, Cache.get_erase_ne c i j hj]

/-- Witness for C6's amended theorem: the side effect leaves other keys
unchanged at a concrete cache. -/
theorem isAudioReady_characterization_witness :
    Cache.get (isAudioReady [(5, loadingFixture)] 5).2 0 =
      Cache.get [(5, loadingFixture)] 0 :=
  (isAudioReady_characterization [(5, loadingFixture)] 5).2.2 0 (by decide)

/-- Counterexample for C4 as stated: `clearCache` empties the whole index,
removing even a durable (offline) record. -/
theorem clearCache_evicts_durable :
    durableFixture.isOffline = true ∧
    Cache.get [(3, durableFixture)] 3 = some durableFixture ∧
    Cache.get (clearCache [(3, durableFixture)]).1 3 = none := by
  decide

/-- C4 amended: the eviction pass (`cleanupCache`) never removes a durable
record from the index; `clearCache` (and therefore `updateVoices` on a voice
change) empties the entire index, durable records included, but schedules
file deletion only for non-durable records. -/
theorem durable_eviction_behavior :
    (∀ (config : AudioCacheConfig) (c : Cache) (currentIndex i : Nat)
        (d : ParagraphAudioData),
      Cache.get c i = some d → d.isOffline = true →
      Cache.get (cleanupCache config c currentIndex).1 i = some d) ∧
    (∀ c : Cache, (clearCache c).1 = []) ∧
    (∀ (c : Cache) (u : String), u ∈ (clearCache c).2 →
      ∃ q ∈ c, q.2.isOffline = false ∧ q.2.audio_uri = some u) := by
  refine ⟨?_, fun _ => rfl, ?_⟩
  · intro config c currentIndex i d hget hoff
    unfold cleanupCache
    by_cases hsize : c.length ≤ config.maxCacheSize
    · simp [hsize, hget]
    · simp only [hsize, if_false]
      exact Cache.get_filter_of_keep _ c i d hget (by simp [hoff])
  · intro c u hu
    simp only [clearCache, List.mem_filterMap, List.mem_filter] at hu
    obtain ⟨q, ⟨hmem, hoff⟩, huri⟩ := hu
    exact ⟨q, hmem, by simpa using hoff, huri⟩

/-- Witness for C4's amended theorem: a durable record outside the retention
window survives an eviction pass that does fire, and `clearCache` empties the
index. -/
theorem durable_eviction_behavior_witness :
    Cache.get (cleanupCache
      { maxCacheSize := 0, preloadCharacterThreshold := 1000,
        maxPreloadDistance := 8, cacheExpiryMs := 0 }
      [(3, durableFixture)] 50).1 3 = some durableFixture ∧
    (clearCache [(3, durableFixture)]).1 = [] :=
  ⟨durable_eviction_behavior.1
    { maxCacheSize := 0, preloadCharacterThreshold := 1000,
      maxPreloadDistance := 8, cacheExpiryMs := 0 }
    [(3, durableFixture)] 50 3 durableFixture (by decide) (by decide),
   durable_eviction_behavior.2.1 [(3, durableFixture)]⟩

/-- Counterexample for C7 as stated: when the first rate application fails,
the retry issues `setRateAsync(clampedSpeed, true)` again — pitch correction
still enabled, not "without pitch adjustment"; and with the operation lock
held the rate is not applied to the loaded sound at all. -/
theorem setPlaybackSpeed_retry_keeps_pitch :
    (setPlaybackSpeed
      { playbackSpeed := 1, autoAdvanceDelayMs := 1, cacheSpeed := 1,
        soundLoaded := true, operationLock := false } 2 true).2
      = [(2, true), (2, true)] ∧
    (setPlaybackSpeed
      { playbackSpeed := 1, autoAdvanceDelayMs := 1, cacheSpeed := 1,
        soundLoaded := true, operationLock := true } 2 true).2 = [] := by
  constructor
  · simp [setPlaybackSpeed, clampSpeed]
    norm_num
  · simp [setPlaybackSpeed]

/-- C7 amended: `setPlaybackSpeed` clamps the requested rate to
`[0.25, 4.0]`, always propagates the clamped value to the cache's prefetch
policy, and applies it to the sound (with pitch correction) only when a sound
is loaded and no operation is in progress; a failed application is retried
exactly once — with pitch correction still enabled — and failures are
swallowed rather than thrown. -/
theorem setPlaybackSpeed_behavior (s : SpeedState) (speed : ℚ)
    (firstAttemptFails : Bool) :
    (setPlaybackSpeed s speed firstAttemptFails).1.playbackSpeed
      = clampSpeed speed ∧
    (setPlaybackSpeed s speed firstAttemptFails).1.cacheSpeed
      = clampSpeed speed ∧
    (1 / 4 : ℚ) ≤ clampSpeed speed ∧ clampSpeed speed ≤ 4 ∧
    (s.soundLoaded = true → s.operationLock = false →
      (setPlaybackSpeed s speed firstAttemptFails).2 =
        if firstAttemptFails then
          [(clampSpeed speed, true), (clampSpeed speed, true)]
        else [(clampSpeed speed, true)]) ∧
    ((s.soundLoaded = false ∨ s.operationLock = true) →
      (setPlaybackSpeed s speed firstAttemptFails).2 = []) := by
  refine ⟨?_, ?_, le_max_left _ _, max_le (by norm_num) (min_le_left _ _),
    ?_, ?_⟩
  · unfold setPlaybackSpeed
    cases h1 : (s.soundLoaded && !s.operationLock) <;>
      cases firstAttemptFails <;> simp [h1]
  · unfold setPlaybackSpeed
    cases h1 : (s.soundLoaded && !s.operationLock) <;>
      cases firstAttemptFails <;> simp [h1]
  · intro hsl hol
    unfold setPlaybackSpeed
    cases firstAttemptFails <;> simp [hsl, hol]
  · intro h
    unfold setPlaybackSpeed
    rcases h with h | h <;> simp [h]

/-- Witness for C7's amended theorem at a concrete out-of-range request. -/
theorem setPlaybackSpeed_behavior_witness :
    (setPlaybackSpeed
      { playbackSpeed := 1, autoAdvanceDelayMs := 1, cacheSpeed := 1,
        soundLoaded := true, operationLock := false } 5 true).2 =
      [(clampSpeed 5, true), (clampSpeed 5, true)] :=
  (setPlaybackSpeed_behavior
    { playbackSpeed := 1, autoAdvanceDelayMs := 1, cacheSpeed := 1,
      soundLoaded := true, operationLock := false } 5 true).2.2.2.2.1 rfl rfl

set_option maxRecDepth 8192 in
/-- Counterexample for C2 as stated: with an empty cache, paragraphs of
lengths `[400, 400, 400]` after index 0 and the default threshold 1000, the
preload pass from index 0 fetches index 3 as well: the source adds a
paragraph's length and issues its fetch before testing the threshold, so the
paragraph whose characters reach the budget is itself fetched. -/
theorem triggerPreload_fetches_threshold_paragraph :
    triggerPreload defaultCacheConfig 0 ["p0", para400, para400, para400] 1
      (fun _ => false) = [1, 2, 3] := by
  have hd : adaptiveMaxDistance defaultCacheConfig 0 4 1 = 3 := by
    norm_num [adaptiveMaxDistance, defaultCacheConfig, min_def]
  have hlen : (["p0", para400, para400, para400] : List String).length = 4 := rfl
  simp only [triggerPreload, hlen, hd]
  decide

set_option maxRecDepth 8192 in
/-- C2 amended: in the same scenario the prefetch window from index 0 is
exactly `{1, 2, 3}` — the budget-reaching paragraph included — and a further
index 4 is not fetched even when it exists. -/
theorem triggerPreload_budget_window :
    triggerPreload defaultCacheConfig 0
      ["p0", para400, para400, para400, para400] 1 (fun _ => false)
      = [1, 2, 3] := by
  have hd : adaptiveMaxDistance defaultCacheConfig 0 5 1 = 4 := by
    norm_num [adaptiveMaxDistance, defaultCacheConfig, min_def]
  have hlen :
      (["p0", para400, para400, para400, para400] : List String).length = 5 :=
    rfl
  simp only [triggerPreload, hlen, hd]
  decide

/-- C8: saving a paragraph's audio into durable storage and seeding a fresh
session's cache from the stored path makes `isAudioReady` true for that
index, and neither operation issues a synthesis request. -/
theorem save_seed_round_trip (baseDir novelId text : String)
    (chapterNumber paragraphIndex now : Nat) (durationHint : Option Nat)
    (storedPath : String)
    (h : saveParagraphAudio baseDir novelId chapterNumber paragraphIndex true
      = some storedPath) :
    (isAudioReady
      (seedCache [] paragraphIndex text storedPath now durationHint).1
      paragraphIndex).1 = true ∧
    (seedCache [] paragraphIndex text storedPath now durationHint).2 = [] := by
  have hp : storedPath = chapterDir baseDir novelId chapterNumber ++ "audio/"
      ++ toString paragraphIndex ++ ".mp3" := by
    simpa [saveParagraphAudio] using h.symm
  refine ⟨?_, rfl⟩
  have hlen : 0 < storedPath.length := by
    rw [hp]
    simp only [String.length_append]
    have h4 : (".mp3" : String).length = 4 := by decide
    omega
  simp [seedCache, isAudioReady, Cache.set, Cache.erase, Cache.get,
    isValidEntry, hlen]

/-- Witness for C8 at a concrete novel, chapter and index. -/
theorem save_seed_round_trip_witness :
    (isAudioReady
      (seedCache [] 3 "text"
        (chapterDir "file:///docs/downloads/" "novel-id" 12 ++ "audio/"
          ++ toString 3 ++ ".mp3") 0 none).1 3).1 = true :=
  (save_seed_round_trip "file:///docs/downloads/" "novel-id" "text" 12 3 0
    none
    (chapterDir "file:///docs/downloads/" "novel-id" 12 ++ "audio/"
      ++ toString 3 ++ ".mp3") rfl).1
